import Mathlib

/-!
# Verification of the VPC Route Cost Dashboard

Shallow embedding of `src/streamlit_app.py` (the whole program is the
`main` function there).  Tabular data is modelled as `List Row`, the
numeric columns as rationals, and each pandas operation used by the
program is translated into an executable Lean function:

* the four sequential equality filters (lines 40–48) become `filterData`;
* the sidebar summary scalars (lines 51–55) become `totalTrips`,
  `totalRevenue`, `averageProfit`, `averageCost`;
* the `groupby(['Month','Fleet']).agg(...)` (lines 69–77) becomes
  `summaryByMonthAndFleet` (pandas `groupby` with its default
  `sort=True` lists group keys in ascending lexicographic order, each
  group aggregating the matching rows);
* the categorical month re-sort (lines 80–82) becomes a stable
  insertion sort by (month rank, fleet), where a month outside the
  fixed list ranks after all known months, exactly as `pd.Categorical`
  maps it to NaN and `sort_values` places NaN last;
* the whole rendering pass (options, filtered table, guarded summary
  sections and charts) becomes `main`, taking the outcome of the
  external spreadsheet parse as an `Except`.
-/

namespace VPC

/-- A route record: one row of the table after line 24 of
`src/streamlit_app.py` drops the COMMISSION and COST/LITRE columns. -/
structure Row where
  origin : String
  destination : String
  fleet : String
  month : String
  tripRate : ℚ
  dispatch : ℚ
  profit : ℚ
deriving DecidableEq, Repr

/-- A raw parsed row, before line 24 drops the two unused columns. -/
structure RawRow where
  origin : String
  destination : String
  fleet : String
  month : String
  tripRate : ℚ
  dispatch : ℚ
  profit : ℚ
  commission : ℚ
  costPerLitre : ℚ
deriving DecidableEq, Repr

/-- Line 24: `data.drop(columns=['COMMISSION', 'COST/LITRE'])`. -/
def dropColumns (r : RawRow) : Row :=
  { origin := r.origin, destination := r.destination, fleet := r.fleet,
    month := r.month, tripRate := r.tripRate, dispatch := r.dispatch,
    profit := r.profit }

/-- The four sidebar selections of lines 34–37; each is either the
sentinel "All" or a value. -/
structure Selection where
  origin : String
  destination : String
  fleet : String
  month : String
deriving DecidableEq, Repr

/-- Lines 40–48: start from a copy of the data, then apply one equality
filter per field whose selection is not "All", in source order. -/
def filterData (sel : Selection) (data : List Row) : List Row :=
  let d0 := data
  let d1 := if sel.origin ≠ "All" then
      d0.filter (fun r => r.origin == sel.origin) else d0
  let d2 := if sel.destination ≠ "All" then
      d1.filter (fun r => r.destination == sel.destination) else d1
  let d3 := if sel.fleet ≠ "All" then
      d2.filter (fun r => r.fleet == sel.fleet) else d2
  if sel.month ≠ "All" then
      d3.filter (fun r => r.month == sel.month) else d3

/-- Specification-side predicate (§4.3 of the spec): a row passes when,
for each field whose selection is not "All", its value equals the
selection, combined by logical AND over the four fields. -/
def matchesSel (sel : Selection) (r : Row) : Bool :=
  (sel.origin == "All" || r.origin == sel.origin) &&
  ((sel.destination == "All" || r.destination == sel.destination) &&
  ((sel.fleet == "All" || r.fleet == sel.fleet) &&
  (sel.month == "All" || r.month == sel.month)))

/-- First-occurrence de-duplication with an accumulator of already seen
values; `uniqueAux seen l` keeps the elements of `l` not in `seen`, each
at its first occurrence. -/
def uniqueAux {α : Type} [DecidableEq α] (seen : List α) : List α → List α
  | [] => []
  | x :: xs => if x ∈ seen then uniqueAux seen xs else x :: uniqueAux (x :: seen) xs

/-- `pandas.Series.unique`: distinct values in first-occurrence order
(lines 27–30 build the filter options with it). -/
def uniqueList {α : Type} [DecidableEq α] (l : List α) : List α := uniqueAux [] l

/-- The four categorical columns used by the filters. -/
inductive Column
  | origin
  | destination
  | fleet
  | month
deriving DecidableEq, Repr

def colValue : Column → Row → String
  | .origin => Row.origin
  | .destination => Row.destination
  | .fleet => Row.fleet
  | .month => Row.month

/-- The dropdown value a Filter Selection holds for one column. -/
def selValue : Column → Selection → String
  | .origin => Selection.origin
  | .destination => Selection.destination
  | .fleet => Selection.fleet
  | .month => Selection.month

/-- Lines 27–30: `['All'] + list(data[col].unique())`. -/
def colOptions (c : Column) (data : List Row) : List String :=
  "All" :: uniqueList (data.map (colValue c))

/-- pandas mean of a numeric column: sum divided by length. -/
def mean (l : List ℚ) : ℚ := l.sum / l.length

/-- Line 52: `filtered_data['ORIGIN'].count()` (no nulls modelled, so
the count of the ORIGIN column is the row count). -/
def totalTrips (t : List Row) : Nat := t.length

/-- Line 53: `filtered_data['TRIP RATE'].sum()`. -/
def totalRevenue (t : List Row) : ℚ := (t.map Row.tripRate).sum

/-- Line 54: `filtered_data['PROFIT'].mean()`. -/
def averageProfit (t : List Row) : ℚ := mean (t.map Row.profit)

/-- Line 55: `filtered_data[['TRIP RATE','DISPATCH']].sum(axis=1).mean()
- average_profit`. -/
def averageCost (t : List Row) : ℚ :=
  mean (t.map (fun r => r.tripRate + r.dispatch)) - averageProfit t

/-- Line 69: `TOTAL_COST = (TRIP RATE + DISPATCH) - PROFIT`. -/
def totalCost (r : Row) : ℚ := r.tripRate + r.dispatch - r.profit

/-- The group key of line 72: the (Month, Fleet) pair. -/
def rowKey (r : Row) : String × String := (r.month, r.fleet)

/-- The rows falling into group `k`. -/
def groupOf (t : List Row) (k : String × String) : List Row :=
  t.filter (fun r => rowKey r == k)

/-- One row of the aggregate table of lines 72–77. -/
structure AggRow where
  month : String
  fleet : String
  numberOfTrips : Nat
  totalRevenue : ℚ
  averageProfit : ℚ
  averageCost : ℚ
deriving DecidableEq, Repr

/-- Lexicographic comparison of character lists by code point; this is
how Python and numpy compare the strings in the table. -/
def charsLe : List Char → List Char → Bool
  | [], _ => true
  | _ :: _, [] => false
  | a :: as, b :: bs =>
    if a.toNat < b.toNat then true
    else if b.toNat < a.toNat then false
    else charsLe as bs

/-- Code-point lexicographic order on strings. -/
def strLe (a b : String) : Bool := charsLe a.data b.data

/-- Ascending lexicographic order on (Month, Fleet) keys: pandas
`groupby` with its default `sort=True` lists groups in this order. -/
def keyLe (a b : String × String) : Bool :=
  if a.1 = b.1 then strLe a.2 b.2 else strLe a.1 b.1

/-- Lines 72–77: the distinct (Month, Fleet) keys of the table, in the
order `groupby(sort=True)` produces them. -/
def groupKeys (t : List Row) : List (String × String) :=
  List.insertionSort (fun a b => keyLe a b = true) (uniqueList (t.map rowKey))

/-- The aggregate row of one group: count of ORIGIN, sum of TRIP RATE,
mean of PROFIT, mean of TOTAL_COST (lines 72–77). -/
def aggFor (t : List Row) (k : String × String) : AggRow :=
  { month := k.1, fleet := k.2,
    numberOfTrips := (groupOf t k).length,
    totalRevenue := ((groupOf t k).map Row.tripRate).sum,
    averageProfit := mean ((groupOf t k).map Row.profit),
    averageCost := mean ((groupOf t k).map totalCost) }

/-- Line 81: position of a month in the fixed categorical order; a month
outside the list becomes NaN, which `sort_values` places last. -/
def monthRank (m : String) : Nat :=
  if m = "JULY" then 0
  else if m = "AUGUST" then 1
  else if m = "SEPTEMBER" then 2
  else if m = "OCTOBER" then 3
  else 4

/-- The order of line 82: `sort_values(['Month','Fleet'])` with Month
categorical — by month rank, then by fleet. -/
def aggLe (a b : AggRow) : Bool :=
  if monthRank a.month = monthRank b.month then strLe a.fleet b.fleet
  else decide (monthRank a.month < monthRank b.month)

/-- Lines 69–82: the grouped aggregate table, sorted chronologically by
month and then by fleet (multi-key `sort_values` is a stable lexsort,
modelled by a stable insertion sort). -/
def summaryByMonthAndFleet (t : List Row) : List AggRow :=
  List.insertionSort (fun a b => aggLe a b = true) ((groupKeys t).map (aggFor t))

/-- The four sidebar scalars of lines 52–55. -/
structure SummaryStats where
  totalTrips : Nat
  totalRevenue : ℚ
  averageProfit : ℚ
  averageCost : ℚ
deriving DecidableEq, Repr

/-- One bar of a chart: x = Month, series = Fleet, y = the charted
column (lines 89–115). -/
structure ChartPoint where
  month : String
  fleet : String
  value : ℚ
deriving DecidableEq, Repr

def chartSeries (f : AggRow → ℚ) (s : List AggRow) : List ChartPoint :=
  s.map fun a => { month := a.month, fleet := a.fleet, value := f a }

/-- Everything the page renders for one successful upload. -/
structure Dashboard where
  originOptions : List String
  destinationOptions : List String
  fleetOptions : List String
  monthOptions : List String
  filteredData : List Row
  sidebarSummary : Option SummaryStats
  summaryTable : Option (List AggRow)
  tripsChart : Option (List ChartPoint)
  profitChart : Option (List ChartPoint)
  costChart : Option (List ChartPoint)
  revenueChart : Option (List ChartPoint)
deriving DecidableEq, Repr

/-- Outcome of one rendering pass: either the error message of line 20,
or a full page. -/
inductive RenderResult
  | errorMessage (msg : String)
  | page (d : Dashboard)
deriving DecidableEq, Repr

/-- Lines 23–115 for an already parsed table: options, filtering, the
two empty-guarded summary sections and the four charts. -/
def renderDashboard (data : List Row) (sel : Selection) : Dashboard :=
  let filtered := filterData sel data
  let summaryTab := summaryByMonthAndFleet filtered
  { originOptions := colOptions Column.origin data
    destinationOptions := colOptions Column.destination data
    fleetOptions := colOptions Column.fleet data
    monthOptions := colOptions Column.month data
    filteredData := filtered
    sidebarSummary := if filtered.isEmpty then none else
      some { totalTrips := totalTrips filtered, totalRevenue := totalRevenue filtered,
             averageProfit := averageProfit filtered, averageCost := averageCost filtered }
    summaryTable := if filtered.isEmpty then none else some summaryTab
    tripsChart := if filtered.isEmpty then none else
      some (chartSeries (fun a => (a.numberOfTrips : ℚ)) summaryTab)
    profitChart := if filtered.isEmpty then none else
      some (chartSeries AggRow.averageProfit summaryTab)
    costChart := if filtered.isEmpty then none else
      some (chartSeries AggRow.averageCost summaryTab)
    revenueChart := if filtered.isEmpty then none else
      some (chartSeries AggRow.totalRevenue summaryTab) }

/-- The whole body of `main` after an upload: the `try/except` of lines
17–21 around the external spreadsheet parse, then the rendering pass.
The parse itself happens in pandas, so its outcome is the `Except`
input. -/
def main (upload : Except String (List RawRow)) (sel : Selection) : RenderResult :=
  match upload with
  | .error e => .errorMessage ("Error reading the file: " ++ e)
  | .ok raw => .page (renderDashboard (raw.map dropColumns) sel)

/-- The Filter Selection whose four dropdowns all stand on the default
sentinel "All" (the no-constraint selection). -/
def allSel : Selection :=
  { origin := "All", destination := "All", fleet := "All", month := "All" }

/-- A Filter Selection constraining only column `c`, to value `v`; the
other three dropdowns stay on "All". -/
def singleSel (c : Column) (v : String) : Selection :=
  match c with
  | .origin => { allSel with origin := v }
  | .destination => { allSel with destination := v }
  | .fleet => { allSel with fleet := v }
  | .month => { allSel with month := v }

/-- The order the sorted aggregate table of line 82 satisfies: primarily
the fixed chronological month order (unknown months last, like the NaN a
`pd.Categorical` gives them), secondarily code-point lexicographic order
of the fleet. -/
def chronoLe (a b : AggRow) : Prop :=
  monthRank a.month < monthRank b.month ∨
    (monthRank a.month = monthRank b.month ∧ strLe a.fleet b.fleet = true)

/-! Concrete sample data, used to instantiate the hypotheses of the
theorems below on closed inputs. -/

def wRowJul : Row :=
  { origin := "LAGOS", destination := "ABUJA", fleet := "FLEET A",
    month := "JULY", tripRate := 100, dispatch := 40, profit := 30 }

def wRowSep : Row :=
  { origin := "LAGOS", destination := "KANO", fleet := "FLEET A",
    month := "SEPTEMBER", tripRate := 200, dispatch := 50, profit := 60 }

def wRowOct : Row :=
  { origin := "ABA", destination := "ABUJA", fleet := "FLEET A",
    month := "OCTOBER", tripRate := 300, dispatch := 70, profit := 90 }

/-- Months appear in input order OCTOBER, JULY, SEPTEMBER. -/
def wTable3 : List Row := [wRowOct, wRowJul, wRowSep]

def wRaw : RawRow :=
  { origin := "LAGOS", destination := "ABUJA", fleet := "FLEET A",
    month := "JULY", tripRate := 100, dispatch := 40, profit := 30,
    commission := 5, costPerLitre := 2 }

/-- A selection matching no row of `[wRaw]`. -/
def noneSel : Selection :=
  { origin := "All", destination := "All", fleet := "NO SUCH FLEET", month := "All" }

/-- A row whose ORIGIN is the literal string "All". -/
def cRowAll : Row :=
  { origin := "All", destination := "X", fleet := "F",
    month := "JULY", tripRate := 1, dispatch := 1, profit := 1 }

/-- A row whose ORIGIN is an ordinary value. -/
def cRowB : Row :=
  { origin := "B", destination := "X", fleet := "F",
    month := "JULY", tripRate := 2, dispatch := 2, profit := 2 }

/-- Like `cRowAll` but with a destination of its own. -/
def cRowAllY : Row :=
  { origin := "All", destination := "Y", fleet := "F",
    month := "JULY", tripRate := 1, dispatch := 1, profit := 1 }

/-! ## Helper lemmas -/

lemma filter_step (s : String) (p : Row → Bool) (l : List Row) :
    (if s ≠ "All" then l.filter p else l) =
      l.filter (fun r => s == "All" || p r) := by
  by_cases h : s = "All"
  · subst h; simp
  · have hb : (s == "All") = false := by simpa using h
    simp [h, hb]

lemma filterData_eq_filter (sel : Selection) (data : List Row) :
    filterData sel data = data.filter (matchesSel sel) := by
  unfold filterData
  simp only [filter_step]
  simp only [List.filter_filter]
  apply List.filter_congr
  intro r _
  simp [matchesSel, Bool.and_comm, Bool.and_left_comm, Bool.and_assoc]

lemma mem_uniqueAux {α : Type} [DecidableEq α] {l : List α} :
    ∀ {seen : List α} {y : α}, y ∈ uniqueAux seen l ↔ y ∈ l ∧ y ∉ seen := by
  induction l with
  | nil => intro seen y; simp [uniqueAux]
  | cons x xs ih =>
    intro seen y
    by_cases hx : x ∈ seen
    · rw [uniqueAux, if_pos hx, ih]
      constructor
      · rintro ⟨h1, h2⟩
        exact ⟨List.mem_cons_of_mem _ h1, h2⟩
      · rintro ⟨h1, h2⟩
        rcases List.mem_cons.mp h1 with rfl | h1
        · exact absurd hx h2
        · exact ⟨h1, h2⟩
    · rw [uniqueAux, if_neg hx]
      constructor
      · intro h
        rcases List.mem_cons.mp h with rfl | h
        · exact ⟨List.mem_cons_self _ _, hx⟩
        · rcases ih.mp h with ⟨h1, h2⟩
          have h3 : y ∉ seen := fun hs => h2 (List.mem_cons_of_mem _ hs)
          exact ⟨List.mem_cons_of_mem _ h1, h3⟩
      · rintro ⟨h1, h2⟩
        rcases List.mem_cons.mp h1 with rfl | h1
        · exact List.mem_cons_self _ _
        · by_cases hyx : y = x
          · subst hyx; exact List.mem_cons_self _ _
          · refine List.mem_cons_of_mem _ (ih.mpr ⟨h1, ?_⟩)
            intro hc
            rcases List.mem_cons.mp hc with h | h
            · exact hyx h
            · exact h2 h

lemma nodup_uniqueAux {α : Type} [DecidableEq α] (l : List α) :
    ∀ seen : List α, (uniqueAux seen l).Nodup := by
  induction l with
  | nil => intro seen; simp [uniqueAux]
  | cons x xs ih =>
    intro seen
    by_cases hx : x ∈ seen
    · rw [uniqueAux, if_pos hx]; exact ih seen
    · rw [uniqueAux, if_neg hx]
      refine List.nodup_cons.mpr ⟨?_, ih _⟩
      intro hmem
      exact (mem_uniqueAux.mp hmem).2 (List.mem_cons_self _ _)

lemma mem_uniqueList {α : Type} [DecidableEq α] {l : List α} {y : α} :
    y ∈ uniqueList l ↔ y ∈ l := by
  unfold uniqueList
  rw [mem_uniqueAux]
  simp

lemma nodup_uniqueList {α : Type} [DecidableEq α] (l : List α) :
    (uniqueList l).Nodup := nodup_uniqueAux l []

lemma pairwise_firstOcc_uniqueAux {α : Type} [DecidableEq α] (l : List α) :
    ∀ seen : List α,
      (uniqueAux seen l).Pairwise (fun a b => l.indexOf a < l.indexOf b) := by
  induction l with
  | nil => intro seen; simp [uniqueAux]
  | cons x xs ih =>
    intro seen
    by_cases hx : x ∈ seen
    · rw [uniqueAux, if_pos hx]
      refine (ih seen).imp_of_mem ?_
      intro a b ha hb hr
      have hax : x ≠ a := fun h => (mem_uniqueAux.mp ha).2 (by rw [← h]; exact hx)
      have hbx : x ≠ b := fun h => (mem_uniqueAux.mp hb).2 (by rw [← h]; exact hx)
      rw [List.indexOf_cons_ne _ hax, List.indexOf_cons_ne _ hbx]
      exact Nat.succ_lt_succ hr
    · rw [uniqueAux, if_neg hx]
      refine List.Pairwise.cons ?_ ?_
      · intro b hb
        have hbx : x ≠ b := fun h =>
          (mem_uniqueAux.mp hb).2 (by rw [← h]; exact List.mem_cons_self x seen)
        rw [List.indexOf_cons_self, List.indexOf_cons_ne _ hbx]
        exact Nat.succ_pos _
      · refine (ih (x :: seen)).imp_of_mem ?_
        intro a b ha hb hr
        have hax : x ≠ a := fun h =>
          (mem_uniqueAux.mp ha).2 (by rw [← h]; exact List.mem_cons_self x seen)
        have hbx : x ≠ b := fun h =>
          (mem_uniqueAux.mp hb).2 (by rw [← h]; exact List.mem_cons_self x seen)
        rw [List.indexOf_cons_ne _ hax, List.indexOf_cons_ne _ hbx]
        exact Nat.succ_lt_succ hr

lemma pairwise_firstOcc_uniqueList {α : Type} [DecidableEq α] (l : List α) :
    (uniqueList l).Pairwise (fun a b => l.indexOf a < l.indexOf b) :=
  pairwise_firstOcc_uniqueAux l []

lemma sum_map_add_nat {κ : Type} (ks : List κ) (f g : κ → ℕ) :
    (ks.map (fun k => f k + g k)).sum = (ks.map f).sum + (ks.map g).sum := by
  induction ks with
  | nil => simp
  | cons k ks ih =>
    simp only [List.map_cons, List.sum_cons, ih]
    omega

lemma sum_indicator_one {κ : Type} [DecidableEq κ] {ks : List κ} {x : κ}
    (hnd : ks.Nodup) (hx : x ∈ ks) :
    (ks.map (fun k => if x = k then 1 else 0)).sum = 1 := by
  induction ks with
  | nil => cases hx
  | cons k ks ih =>
    rcases List.nodup_cons.mp hnd with ⟨hk, hnd'⟩
    rcases List.mem_cons.mp hx with rfl | hx'
    · simp only [List.map_cons, List.sum_cons, if_pos rfl]
      have hzero : ∀ n ∈ ks.map (fun k => if x = k then 1 else 0), n = 0 := by
        intro n hn
        rcases List.mem_map.mp hn with ⟨k', hk', rfl⟩
        rw [if_neg]
        intro h
        exact hk (h ▸ hk')
      rw [List.sum_eq_zero hzero]
      simp
    · have hne : x ≠ k := fun h => hk (h ▸ hx')
      simp only [List.map_cons, List.sum_cons, if_neg hne, ih hnd' hx', Nat.zero_add]

lemma groupOf_cons (r : Row) (t : List Row) (k : String × String) :
    groupOf (r :: t) k = if rowKey r = k then r :: groupOf t k else groupOf t k := by
  by_cases h : rowKey r = k
  · simp [groupOf, List.filter_cons, h]
  · simp [groupOf, List.filter_cons, h]

lemma length_eq_sum_group_lengths (t : List Row) (ks : List (String × String))
    (hnd : ks.Nodup) (hall : ∀ r ∈ t, rowKey r ∈ ks) :
    (ks.map (fun k => (groupOf t k).length)).sum = t.length := by
  induction t with
  | nil => simp [groupOf]
  | cons r t ih =>
    have hall' : ∀ r' ∈ t, rowKey r' ∈ ks := fun r' h =>
      hall r' (List.mem_cons_of_mem _ h)
    have hmap : ks.map (fun k => (groupOf (r :: t) k).length) =
        ks.map (fun k => (if rowKey r = k then 1 else 0) + (groupOf t k).length) := by
      refine List.map_congr_left ?_
      intro k _
      rw [groupOf_cons]
      by_cases h : rowKey r = k
      · simp [h, Nat.add_comm]
      · simp [h]
    rw [hmap, sum_map_add_nat, sum_indicator_one hnd (hall r (List.mem_cons_self r t)),
      ih hall']
    simp [Nat.add_comm]

lemma charsLe_total : ∀ as bs : List Char, charsLe as bs = true ∨ charsLe bs as = true
  | [], _ => Or.inl rfl
  | _ :: _, [] => Or.inr rfl
  | a :: as, b :: bs => by
    rcases Nat.lt_trichotomy a.toNat b.toNat with h | h | h
    · left; simp [charsLe, h]
    · rcases charsLe_total as bs with hr | hr
      · left; simp [charsLe, h, Nat.lt_irrefl, hr]
      · right; simp [charsLe, h.symm, Nat.lt_irrefl, hr]
    · right; simp [charsLe, h]

lemma charsLe_trans : ∀ as bs cs : List Char,
    charsLe as bs = true → charsLe bs cs = true → charsLe as cs = true
  | [], _, _ => fun _ _ => rfl
  | _ :: _, [], _ => fun h _ => by simp [charsLe] at h
  | _ :: _, _ :: _, [] => fun _ h => by simp [charsLe] at h
  | a :: as, b :: bs, c :: cs => fun h1 h2 => by
    rcases Nat.lt_trichotomy a.toNat b.toNat with hab | hab | hab
    · rcases Nat.lt_trichotomy b.toNat c.toNat with hbc | hbc | hbc
      · have h3 : a.toNat < c.toNat := by omega
        simp [charsLe, h3]
      · have h3 : a.toNat < c.toNat := by omega
        simp [charsLe, h3]
      · exfalso
        simp [charsLe, Nat.lt_asymm hbc, hbc] at h2
    · rcases Nat.lt_trichotomy b.toNat c.toNat with hbc | hbc | hbc
      · have h3 : a.toNat < c.toNat := by omega
        simp [charsLe, h3]
      · have h3 : a.toNat = c.toNat := by omega
        have h1' : charsLe as bs = true := by
          simpa [charsLe, hab, Nat.lt_irrefl] using h1
        have h2' : charsLe bs cs = true := by
          simpa [charsLe, hbc, Nat.lt_irrefl] using h2
        simp [charsLe, h3, Nat.lt_irrefl, charsLe_trans as bs cs h1' h2']
      · exfalso
        simp [charsLe, Nat.lt_asymm hbc, hbc] at h2
    · exfalso
      simp [charsLe, Nat.lt_asymm hab, hab] at h1

lemma strLe_total (a b : String) : strLe a b = true ∨ strLe b a = true :=
  charsLe_total a.data b.data

lemma strLe_trans {a b c : String} :
    strLe a b = true → strLe b c = true → strLe a c = true :=
  charsLe_trans a.data b.data c.data

lemma aggLe_eq_true_iff (a b : AggRow) : aggLe a b = true ↔ chronoLe a b := by
  unfold aggLe chronoLe
  by_cases h : monthRank a.month = monthRank b.month
  · simp [h, Nat.lt_irrefl]
  · simp [h, decide_eq_true_iff]

instance instIsTotalAggLe : IsTotal AggRow (fun a b => aggLe a b = true) := by
  refine ⟨?_⟩
  intro a b
  unfold aggLe
  by_cases h : monthRank a.month = monthRank b.month
  · simp only [h, if_pos, if_true]
    exact strLe_total _ _
  · have h' : monthRank b.month ≠ monthRank a.month := fun hh => h hh.symm
    simp only [if_neg h, if_neg h', decide_eq_true_iff]
    omega

instance instIsTransAggLe : IsTrans AggRow (fun a b => aggLe a b = true) := by
  refine ⟨?_⟩
  intro a b c hab hbc
  unfold aggLe at hab hbc ⊢
  by_cases h1 : monthRank a.month = monthRank b.month <;>
    by_cases h2 : monthRank b.month = monthRank c.month
  · have h3 : monthRank a.month = monthRank c.month := h1.trans h2
    rw [if_pos h1] at hab
    rw [if_pos h2] at hbc
    rw [if_pos h3]
    exact strLe_trans hab hbc
  · have h3 : monthRank a.month ≠ monthRank c.month := by rw [h1]; exact h2
    rw [if_pos h1] at hab
    rw [if_neg h2] at hbc
    rw [if_neg h3]
    rw [decide_eq_true_iff] at hbc ⊢
    omega
  · have h3 : monthRank a.month ≠ monthRank c.month := by rw [← h2]; exact h1
    rw [if_neg h1] at hab
    rw [if_pos h2] at hbc
    rw [if_neg h3]
    rw [decide_eq_true_iff] at hab ⊢
    omega
  · rw [if_neg h1] at hab
    rw [if_neg h2] at hbc
    rw [decide_eq_true_iff] at hab hbc
    have h3 : monthRank a.month ≠ monthRank c.month := by omega
    rw [if_neg h3, decide_eq_true_iff]
    omega

lemma mem_groupKeys {t : List Row} {k : String × String} :
    k ∈ groupKeys t ↔ k ∈ t.map rowKey := by
  unfold groupKeys
  rw [List.mem_insertionSort, mem_uniqueList]

lemma nodup_groupKeys (t : List Row) : (groupKeys t).Nodup :=
  (List.perm_insertionSort _ _).nodup_iff.mpr (nodup_uniqueList _)

lemma mem_summary_iff {t : List Row} {a : AggRow} :
    a ∈ summaryByMonthAndFleet t ↔ ∃ k ∈ groupKeys t, a = aggFor t k := by
  unfold summaryByMonthAndFleet
  rw [List.mem_insertionSort, List.mem_map]
  constructor
  · rintro ⟨k, hk, rfl⟩
    exact ⟨k, hk, rfl⟩
  · rintro ⟨k, hk, rfl⟩
    exact ⟨k, hk, rfl⟩

lemma summary_perm (t : List Row) :
    List.Perm (summaryByMonthAndFleet t) ((groupKeys t).map (aggFor t)) :=
  List.perm_insertionSort _ _

lemma isEmpty_false_of_ne_nil {α : Type} {l : List α} (h : l ≠ []) :
    l.isEmpty = false := by
  cases l
  · exact absurd rfl h
  · rfl

lemma sum_map_sub_rat (t : List Row) (f g : Row → ℚ) :
    (t.map (fun r => f r - g r)).sum = (t.map f).sum - (t.map g).sum := by
  induction t with
  | nil => simp
  | cons r t ih =>
    simp only [List.map_cons, List.sum_cons, ih]
    ring

lemma filterData_singleSel (c : Column) (v : String) (data : List Row) :
    filterData (singleSel c v) data =
      if v = "All" then data else data.filter (fun r => colValue c r == v) := by
  cases c <;> by_cases hv : v = "All" <;>
    simp [filterData, singleSel, allSel, colValue, hv]

lemma colValue_of_mem_filterData {c : Column} {sel : Selection} {data : List Row}
    {r : Row} (hr : r ∈ filterData sel data) (h : selValue c sel ≠ "All") :
    colValue c r = selValue c sel := by
  rw [filterData_eq_filter] at hr
  have hm := (List.mem_filter.mp hr).2
  simp only [matchesSel, Bool.and_eq_true, Bool.or_eq_true, beq_iff_eq] at hm
  cases c
  · exact (hm.1).resolve_left h
  · exact (hm.2.1).resolve_left h
  · exact (hm.2.2.1).resolve_left h
  · exact (hm.2.2.2).resolve_left h

/-! ## The claims -/

/-- C1: for every ingested table and every Filter Selection, the
sequential filtering of lines 40–48 returns exactly the rows that
satisfy, for each field whose selection is not "All", equality with the
selection, conjoined over the four fields ("All" imposing no
constraint); it equals one `List.filter` of the input by `matchesSel`,
so the surviving rows keep the input's relative order. -/
theorem claim_C1 (sel : Selection) (data : List Row) :
    filterData sel data = data.filter (matchesSel sel) :=
  filterData_eq_filter sel data

/-- C6: when the spreadsheet parse of line 18 fails, `main` shows the
error message of line 20 and halts: the outcome is never a rendered
page, so no filtering, summarisation, aggregation or chart rendering
happens for that upload. -/
theorem claim_C6 (e : String) (sel : Selection) :
    main (Except.error e) sel =
      RenderResult.errorMessage ("Error reading the file: " ++ e) ∧
    ∀ d : Dashboard, main (Except.error e) sel ≠ RenderResult.page d := by
  refine ⟨rfl, ?_⟩
  intro d h
  exact RenderResult.noConfusion h

/-- C7: over one non-empty row set the two average-cost formulations
coincide: the sidebar's mean(TRIP RATE + DISPATCH) − mean(PROFIT) of
line 55 equals the mean of the per-row TOTAL_COST of line 69 that the
grouped aggregation averages. -/
theorem claim_C7 (t : List Row) (h : t ≠ []) :
    averageCost t = mean (t.map totalCost) := by
  unfold averageCost averageProfit mean totalCost
  rw [List.length_map, List.length_map, List.length_map, div_sub_div_same]
  congr 1
  rw [← sum_map_sub_rat t (fun r => r.tripRate + r.dispatch) Row.profit]

theorem claim_C7_witness :
    ([wRowJul] : List Row) ≠ [] ∧
      averageCost [wRowJul] = mean ([wRowJul].map totalCost) :=
  ⟨by decide, claim_C7 [wRowJul] (by decide)⟩

/-- C8: the filtered result of any Filter Selection is a sublist (hence
a subset, in order) of the ingested table, and the all-"All" selection
leaves the table unchanged. -/
theorem claim_C8 (sel : Selection) (data : List Row) :
    (filterData sel data).Sublist data ∧ filterData allSel data = data := by
  constructor
  · rw [filterData_eq_filter]
    exact List.filter_sublist data
  · simp [filterData, allSel]

/-- C9: for each of the four categorical columns, the option list of
lines 27–30 is the sentinel "All" followed by the column's distinct
values in first-occurrence order: its head is "All" and its tail is
duplicate-free, contains exactly the values occurring in the column,
and is arranged by ascending first-occurrence index. -/
theorem claim_C9 (data : List Row) (c : Column) :
    (colOptions c data).head? = some "All" ∧
    (colOptions c data).tail.Nodup ∧
    (∀ x, x ∈ (colOptions c data).tail ↔ x ∈ data.map (colValue c)) ∧
    (colOptions c data).tail.Pairwise
      (fun a b => (data.map (colValue c)).indexOf a <
        (data.map (colValue c)).indexOf b) := by
  refine ⟨rfl, ?_, ?_, ?_⟩
  · exact nodup_uniqueList _
  · intro x
    exact mem_uniqueList
  · exact pairwise_firstOcc_uniqueList _

/-- C3: for a non-empty filtered table the four sidebar scalars of
lines 52–55 satisfy: trip count = row count, total revenue = Σ TRIP
RATE, average profit = Σ PROFIT / count, and average cost = mean of
(TRIP RATE + DISPATCH) minus the average profit. -/
theorem claim_C3 (data : List Row) (sel : Selection)
    (h : filterData sel data ≠ []) :
    (renderDashboard data sel).sidebarSummary = some
      { totalTrips := (filterData sel data).length,
        totalRevenue := ((filterData sel data).map Row.tripRate).sum,
        averageProfit := ((filterData sel data).map Row.profit).sum /
          ((filterData sel data).length : ℚ),
        averageCost := ((filterData sel data).map
            (fun r => r.tripRate + r.dispatch)).sum /
            ((filterData sel data).length : ℚ) -
          ((filterData sel data).map Row.profit).sum /
            ((filterData sel data).length : ℚ) } := by
  have hne := isEmpty_false_of_ne_nil h
  simp [renderDashboard, hne, totalTrips, totalRevenue, averageProfit,
    averageCost, mean, List.length_map]

theorem claim_C3_witness :
    filterData allSel [wRowJul] ≠ [] ∧
    (renderDashboard [wRowJul] allSel).sidebarSummary = some
      { totalTrips := (filterData allSel [wRowJul]).length,
        totalRevenue := ((filterData allSel [wRowJul]).map Row.tripRate).sum,
        averageProfit := ((filterData allSel [wRowJul]).map Row.profit).sum /
          ((filterData allSel [wRowJul]).length : ℚ),
        averageCost := ((filterData allSel [wRowJul]).map
            (fun r => r.tripRate + r.dispatch)).sum /
            ((filterData allSel [wRowJul]).length : ℚ) -
          ((filterData allSel [wRowJul]).map Row.profit).sum /
            ((filterData allSel [wRowJul]).length : ℚ) } :=
  ⟨by decide, claim_C3 [wRowJul] allSel (by decide)⟩

/-- C5: when a Filter Selection matches no row, the rendering pass still
returns a page (a valid non-error outcome) but the sidebar summary, the
grouped aggregate table and all four charts are suppressed. -/
theorem claim_C5 (raw : List RawRow) (sel : Selection)
    (h : filterData sel (raw.map dropColumns) = []) :
    main (Except.ok raw) sel =
      RenderResult.page (renderDashboard (raw.map dropColumns) sel) ∧
    (renderDashboard (raw.map dropColumns) sel).sidebarSummary = none ∧
    (renderDashboard (raw.map dropColumns) sel).summaryTable = none ∧
    (renderDashboard (raw.map dropColumns) sel).tripsChart = none ∧
    (renderDashboard (raw.map dropColumns) sel).profitChart = none ∧
    (renderDashboard (raw.map dropColumns) sel).costChart = none ∧
    (renderDashboard (raw.map dropColumns) sel).revenueChart = none := by
  have he : (filterData sel (raw.map dropColumns)).isEmpty = true := by
    rw [h]
    rfl
  refine ⟨rfl, ?_, ?_, ?_, ?_, ?_, ?_⟩ <;> simp [renderDashboard, he]

theorem claim_C5_witness :
    filterData noneSel ([wRaw].map dropColumns) = [] ∧
    (main (Except.ok [wRaw]) noneSel =
      RenderResult.page (renderDashboard ([wRaw].map dropColumns) noneSel) ∧
    (renderDashboard ([wRaw].map dropColumns) noneSel).sidebarSummary = none ∧
    (renderDashboard ([wRaw].map dropColumns) noneSel).summaryTable = none ∧
    (renderDashboard ([wRaw].map dropColumns) noneSel).tripsChart = none ∧
    (renderDashboard ([wRaw].map dropColumns) noneSel).profitChart = none ∧
    (renderDashboard ([wRaw].map dropColumns) noneSel).costChart = none ∧
    (renderDashboard ([wRaw].map dropColumns) noneSel).revenueChart = none) :=
  ⟨by decide, claim_C5 [wRaw] noneSel (by decide)⟩

/-- C2: for a non-empty filtered table, every row of the grouped
aggregate of lines 69–77 carries its group's row count, Σ TRIP RATE,
mean PROFIT and mean TOTAL_COST (the per-row derived cost of line 69);
the (Month, Fleet) pairs of the output are exactly the pairs occurring
in the table, each in exactly one output row; and the per-group counts
sum to the table's row count. -/
theorem claim_C2 (t : List Row) (h : t ≠ []) :
    (∀ a ∈ summaryByMonthAndFleet t,
        a.numberOfTrips = (groupOf t (a.month, a.fleet)).length ∧
        a.totalRevenue = ((groupOf t (a.month, a.fleet)).map Row.tripRate).sum ∧
        a.averageProfit = mean ((groupOf t (a.month, a.fleet)).map Row.profit) ∧
        a.averageCost = mean ((groupOf t (a.month, a.fleet)).map totalCost)) ∧
    ((summaryByMonthAndFleet t).map (fun a => (a.month, a.fleet))).Nodup ∧
    (∀ m f : String,
        (∃ a ∈ summaryByMonthAndFleet t, a.month = m ∧ a.fleet = f) ↔
        ∃ r ∈ t, r.month = m ∧ r.fleet = f) ∧
    ((summaryByMonthAndFleet t).map AggRow.numberOfTrips).sum = t.length := by
  refine ⟨?_, ?_, ?_, ?_⟩
  · intro a ha
    rcases mem_summary_iff.mp ha with ⟨k, hk, rfl⟩
    simp [aggFor]
  · have hmapmap : ((groupKeys t).map (aggFor t)).map (fun a => (a.month, a.fleet)) =
        groupKeys t := by
      rw [List.map_map]
      have hcomp : ((fun a : AggRow => (a.month, a.fleet)) ∘ aggFor t) = id := by
        funext k
        simp [aggFor]
      rw [hcomp, List.map_id]
    have hperm := (summary_perm t).map (fun a : AggRow => (a.month, a.fleet))
    rw [hmapmap] at hperm
    exact hperm.nodup_iff.mpr (nodup_groupKeys t)
  · intro m f
    constructor
    · rintro ⟨a, ha, hm, hf⟩
      rcases mem_summary_iff.mp ha with ⟨k, hk, rfl⟩
      rcases List.mem_map.mp (mem_groupKeys.mp hk) with ⟨r, hr, hkey⟩
      subst hkey
      simp only [aggFor, rowKey] at hm hf
      exact ⟨r, hr, hm, hf⟩
    · rintro ⟨r, hr, hm, hf⟩
      refine ⟨aggFor t (rowKey r), ?_, ?_, ?_⟩
      · exact mem_summary_iff.mpr
          ⟨rowKey r, mem_groupKeys.mpr (List.mem_map.mpr ⟨r, hr, rfl⟩), rfl⟩
      · simpa [aggFor, rowKey] using hm
      · simpa [aggFor, rowKey] using hf
  · have hperm := (summary_perm t).map AggRow.numberOfTrips
    rw [hperm.sum_eq, List.map_map]
    have hm2 : (groupKeys t).map (AggRow.numberOfTrips ∘ aggFor t) =
        (groupKeys t).map (fun k => (groupOf t k).length) := rfl
    rw [hm2]
    exact length_eq_sum_group_lengths t (groupKeys t) (nodup_groupKeys t)
      (fun r hr => mem_groupKeys.mpr (List.mem_map.mpr ⟨r, hr, rfl⟩))

theorem claim_C2_witness :
    wTable3 ≠ [] ∧
    ((∀ a ∈ summaryByMonthAndFleet wTable3,
        a.numberOfTrips = (groupOf wTable3 (a.month, a.fleet)).length ∧
        a.totalRevenue = ((groupOf wTable3 (a.month, a.fleet)).map Row.tripRate).sum ∧
        a.averageProfit = mean ((groupOf wTable3 (a.month, a.fleet)).map Row.profit) ∧
        a.averageCost = mean ((groupOf wTable3 (a.month, a.fleet)).map totalCost)) ∧
    ((summaryByMonthAndFleet wTable3).map (fun a => (a.month, a.fleet))).Nodup ∧
    (∀ m f : String,
        (∃ a ∈ summaryByMonthAndFleet wTable3, a.month = m ∧ a.fleet = f) ↔
        ∃ r ∈ wTable3, r.month = m ∧ r.fleet = f) ∧
    ((summaryByMonthAndFleet wTable3).map AggRow.numberOfTrips).sum = wTable3.length) :=
  ⟨by decide, claim_C2 wTable3 (by decide)⟩

/-- C4: for a non-empty filtered table the grouped aggregate of lines
80–82 is sorted primarily by the fixed chronological month order (a
month outside {JULY, AUGUST, SEPTEMBER, OCTOBER} ranks after all known
months, as `pd.Categorical` turns it into NaN and `sort_values` puts
NaN last) and secondarily by fleet in lexicographic order; on the
concrete table with input months OCTOBER, JULY, SEPTEMBER the output
Month column reads JULY, SEPTEMBER, OCTOBER. -/
theorem claim_C4 (t : List Row) (h : t ≠ []) :
    (summaryByMonthAndFleet t).Pairwise chronoLe ∧
    (summaryByMonthAndFleet wTable3).map AggRow.month =
      ["JULY", "SEPTEMBER", "OCTOBER"] := by
  constructor
  · have hs := List.sorted_insertionSort (fun a b => aggLe a b = true)
      ((groupKeys t).map (aggFor t))
    exact List.Pairwise.imp (fun hab => (aggLe_eq_true_iff _ _).mp hab) hs
  · decide

theorem claim_C4_witness :
    wTable3 ≠ [] ∧
    ((summaryByMonthAndFleet wTable3).Pairwise chronoLe ∧
    (summaryByMonthAndFleet wTable3).map AggRow.month =
      ["JULY", "SEPTEMBER", "OCTOBER"]) :=
  ⟨by decide, claim_C4 wTable3 (by decide)⟩

/-- C10 counterexample: the claim says no Filter Selection can return
exactly the rows whose value in the "All"-carrying field is the literal
"All". It is false at two concrete inputs: on the one-row table
`[cRowAll]` (whose only row has ORIGIN "All") the all-"All" selection
returns exactly those rows; and on `[cRowAllY, cRowB]` the selection
constraining DESTINATION to "Y" also returns exactly the rows with
ORIGIN "All". -/
theorem claim_C10_counterexample :
    (cRowAll ∈ ([cRowAll] : List Row) ∧ cRowAll.origin = "All") ∧
    filterData allSel [cRowAll] =
      ([cRowAll] : List Row).filter (fun r => r.origin == "All") ∧
    (cRowAllY ∈ ([cRowAllY, cRowB] : List Row) ∧ cRowAllY.origin = "All" ∧
      cRowB.origin ≠ "All") ∧
    filterData { origin := "All", destination := "Y", fleet := "All", month := "All" }
        [cRowAllY, cRowB] =
      ([cRowAllY, cRowB] : List Row).filter (fun r => r.origin == "All") := by
  refine ⟨⟨List.mem_cons_self _ _, rfl⟩, rfl, ⟨List.mem_cons_self _ _, rfl, ?_⟩, rfl⟩
  intro hc
  exact absurd hc (by decide)

/-- C10 amended: for every table holding rows whose value in some
categorical field is the literal "All", the sentinel is not escaped or
distinguished from data: selecting "All" for that field still applies
no constraint (the selection touching no other field returns all rows,
not only the rows valued "All"), the option list for that field lists
"All" more than once, and no Filter Selection whose dropdown for that
field is off "All" — that is, any selection actually constraining that
field, alone or together with other fields — returns exactly those
rows. Only selections leaving the field unconstrained are exempt, the
exact class the counterexamples exhibit. -/
theorem claim_C10_amended (data : List Row) (c : Column)
    (h1 : ∃ r ∈ data, colValue c r = "All") :
    filterData (singleSel c "All") data = data ∧
    1 < (colOptions c data).count "All" ∧
    ∀ sel : Selection, selValue c sel ≠ "All" →
      filterData sel data ≠ data.filter (fun r => colValue c r == "All") := by
  refine ⟨?_, ?_, ?_⟩
  · rw [filterData_singleSel]
    simp
  · rcases h1 with ⟨r0, hr0, hv0⟩
    have hmem : "All" ∈ uniqueList (data.map (colValue c)) :=
      mem_uniqueList.mpr (List.mem_map.mpr ⟨r0, hr0, hv0⟩)
    have hpos : 0 < (uniqueList (data.map (colValue c))).count "All" :=
      List.count_pos_iff.mpr hmem
    unfold colOptions
    rw [List.count_cons_self]
    omega
  · intro sel hsel heq
    rcases h1 with ⟨r0, hr0, hv0⟩
    have hmemR : r0 ∈ data.filter (fun r => colValue c r == "All") :=
      List.mem_filter.mpr ⟨hr0, by simp [hv0]⟩
    rw [← heq] at hmemR
    have hcv := colValue_of_mem_filterData hmemR hsel
    rw [hv0] at hcv
    exact hsel hcv.symm

theorem claim_C10_witness :
    (∃ r ∈ ([cRowAll, cRowB] : List Row), colValue Column.origin r = "All") ∧
    (filterData (singleSel Column.origin "All") [cRowAll, cRowB] =
        [cRowAll, cRowB] ∧
    1 < (colOptions Column.origin [cRowAll, cRowB]).count "All" ∧
    ∀ sel : Selection, selValue Column.origin sel ≠ "All" →
      filterData sel [cRowAll, cRowB] ≠
        ([cRowAll, cRowB] : List Row).filter
          (fun r => colValue Column.origin r == "All")) :=
  ⟨by decide, claim_C10_amended [cRowAll, cRowB] Column.origin (by decide)⟩

end VPC
